import Mathlib

/-!
Verification development for the PocketPaw desktop launcher and frontend
state manager.  Each definition is a shallow embedding of a concrete piece
of the repository:

* `StateManager` embeds the frontend `StateManager` module
  (localStorage persistence and the in-memory LRU session cache).
* `SemVer` embeds the updater's release-channel version comparison.
* `InstallPs1` embeds the Python-discovery cascade of the Windows
  bootstrap script `install.ps1`.
* `Launcher` embeds the lifecycle state machine of the launcher
  (dev-mode marker, process supervisor, update reconciler, uninstaller);
  where the Python module itself is not part of the material, the
  definition is modelled from the specification and says so in its
  doc comment.
-/

namespace StateManager

/-- Embeds the constant `MAX_CACHE = 20` of the state manager. -/
def MAX_CACHE : Nat := 20

/-- Embeds the constant `PREFIX = "pw_"` used for localStorage keys
(the source calls it PREFIX). -/
def pwNsStr : String := "pw_"

section Cache

variable {α β : Type} [DecidableEq α]

/-- The in-memory session cache `_cache`, a JavaScript `Map`, modelled as an
association list in insertion order: the head is the oldest (first-inserted)
entry, the last element the most recently inserted one.  Keys are unique. -/
abbrev Cache (α β : Type) := List (α × β)

/-- `Map.has(id)`. -/
def hasKey (c : Cache α β) (id : α) : Bool :=
  c.any (fun p => p.1 = id)

/-- `Map.delete(id)`: removes the entry with key `id` (no-op when absent). -/
def eraseKey (c : Cache α β) (id : α) : Cache α β :=
  c.filter (fun p => p.1 ≠ id)

/-- `_cache.keys().next().value` followed by `Map.delete` of it: deleting the
oldest entry, i.e. the head of the insertion-ordered list. -/
def dropOldest (c : Cache α β) : Cache α β :=
  match c with
  | [] => []
  | x :: _ => eraseKey c x.1

/-- Embeds `cacheSession(id, messages)`:

    if (_cache.size >= MAX_CACHE && !_cache.has(id)) {
        const oldest = _cache.keys().next().value;
        _cache.delete(oldest);
    }
    _cache.delete(id);
    _cache.set(id, [...messages]);

`Map.set` on a key just deleted appends the entry at the end of the
iteration order. -/
def cacheSession (c : Cache α β) (id : α) (messages : β) : Cache α β :=
  eraseKey
    (if MAX_CACHE ≤ c.length ∧ ¬ hasKey c id then dropOldest c else c) id
    ++ [(id, messages)]

/-- Keys of the cache are pairwise distinct — true of a JavaScript `Map`
and preserved by the embedding. -/
def keysNodup (c : Cache α β) : Prop := (c.map Prod.fst).Nodup

theorem length_eraseKey_le (c : Cache α β) (id : α) :
    (eraseKey c id).length ≤ c.length :=
  List.length_filter_le _ _

theorem eraseKey_of_not_has (c : Cache α β) (id : α) (h : hasKey c id = false) :
    eraseKey c id = c := by
  have h2 : ∀ p ∈ c, ¬ (p.1 = id) := by
    intro p hp he
    have ht : hasKey c id = true := by
      simp only [hasKey, List.any_eq_true]
      exact ⟨p, hp, by simp [he]⟩
    rw [h] at ht
    exact Bool.false_ne_true ht
  rw [eraseKey, List.filter_eq_self]
  intro p hp
  simp only [decide_eq_true_eq]
  exact h2 p hp

theorem hasKey_append_single (c : Cache α β) (id k : α) (m : β) :
    hasKey (c ++ [(id, m)]) k = (hasKey c k || decide (id = k)) := by
  simp [hasKey]

theorem hasKey_eraseKey (c : Cache α β) (id k : α) (hk : k ≠ id) :
    hasKey (eraseKey c id) k = hasKey c k := by
  have h : (hasKey (eraseKey c id) k = true) ↔ (hasKey c k = true) := by
    simp only [hasKey, eraseKey, List.any_eq_true, List.mem_filter,
      decide_eq_true_eq]
    constructor
    · rintro ⟨p, ⟨hp, -⟩, hpk⟩
      exact ⟨p, hp, hpk⟩
    · rintro ⟨p, hp, hpk⟩
      refine ⟨p, ⟨hp, ?_⟩, hpk⟩
      rw [hpk]
      exact hk
  cases he : hasKey (eraseKey c id) k with
  | false =>
      cases hc : hasKey c k with
      | false => rfl
      | true => exact absurd (h.2 hc) (by rw [he]; exact Bool.false_ne_true)
  | true => exact (h.1 he).symm

theorem hasKey_eq_false_iff (c : Cache α β) (k : α) :
    hasKey c k = false ↔ ∀ p ∈ c, p.1 ≠ k := by
  simp [hasKey]

theorem length_eraseKey_lt_of_has (c : Cache α β) (id : α)
    (h : hasKey c id = true) : (eraseKey c id).length < c.length := by
  induction c with
  | nil => simp [hasKey] at h
  | cons x xs ih =>
      by_cases hx : x.1 = id
      · have he : eraseKey (x :: xs) id = eraseKey xs id := by
          simp [eraseKey, List.filter_cons, hx]
        rw [he]
        calc (eraseKey xs id).length ≤ xs.length := length_eraseKey_le xs id
          _ < (x :: xs).length := by simp
      · have hxs : hasKey xs id = true := by
          simp only [hasKey, List.any_cons, Bool.or_eq_true] at h
          rcases h with h | h
          · exact absurd (by simpa using h) hx
          · exact h
        have he : eraseKey (x :: xs) id = x :: eraseKey xs id := by
          simp [eraseKey, List.filter_cons, hx]
        rw [he]
        simpa using Nat.succ_lt_succ (ih hxs)

theorem length_cacheSession_le (c : Cache α β) (id : α) (m : β)
    (h : c.length ≤ MAX_CACHE) :
    (cacheSession c id m).length ≤ MAX_CACHE := by
  unfold cacheSession
  by_cases hc : MAX_CACHE ≤ c.length ∧ ¬ hasKey c id
  · rw [if_pos hc]
    have hlen : c.length = MAX_CACHE := Nat.le_antisymm h hc.1
    cases c with
    | nil => simp [MAX_CACHE] at hlen
    | cons x xs =>
        have h1 : (dropOldest (x :: xs)).length ≤ xs.length := by
          show (eraseKey (x :: xs) x.1).length ≤ xs.length
          have h2 : eraseKey (x :: xs) x.1 = eraseKey xs x.1 := by
            simp [eraseKey, List.filter_cons]
          rw [h2]
          exact length_eraseKey_le xs x.1
        have h2 : (eraseKey (dropOldest (x :: xs)) id).length ≤ xs.length :=
          le_trans (length_eraseKey_le _ id) h1
        rw [List.length_append]
        simp only [List.length_cons, List.length_nil]
        have hxs : xs.length + 1 = MAX_CACHE := by simpa using hlen
        omega
  · rw [if_neg hc]
    rw [List.length_append]
    simp only [List.length_cons, List.length_nil]
    by_cases hid : hasKey c id = true
    · have h3 : (eraseKey c id).length < c.length :=
        length_eraseKey_lt_of_has c id hid
      omega
    · have hid2 : hasKey c id = false := by
        cases hk : hasKey c id
        · rfl
        · exact absurd hk hid
      have hlt : ¬ MAX_CACHE ≤ c.length := by
        intro hle
        exact hc ⟨hle, fun ht => Bool.false_ne_true (hid2 ▸ ht)⟩
      rw [eraseKey_of_not_has c id hid2]
      omega

theorem foldl_cacheSession_length_le (ops : List (α × β)) (c : Cache α β)
    (h : c.length ≤ MAX_CACHE) :
    (ops.foldl (fun acc op => cacheSession acc op.1 op.2) c).length
      ≤ MAX_CACHE := by
  induction ops generalizing c with
  | nil => exact h
  | cons op ops ih =>
      exact ih (cacheSession c op.1 op.2) (length_cacheSession_le c op.1 op.2 h)

theorem cacheSession_at_capacity (c : Cache α β) (id : α) (m : β)
    (hnd : keysNodup c) (hlen : c.length = MAX_CACHE)
    (hid : hasKey c id = false) :
    cacheSession c id m = c.tail ++ [(id, m)] := by
  cases c with
  | nil => simp [MAX_CACHE] at hlen
  | cons x xs =>
      have hcond : MAX_CACHE ≤ (x :: xs).length ∧ ¬ hasKey (x :: xs) id := by
        refine ⟨le_of_eq hlen.symm, fun ht => ?_⟩
        rw [hid] at ht
        exact Bool.false_ne_true ht
      unfold cacheSession
      rw [if_pos hcond]
      have hx1 : ¬ x.1 ∈ xs.map Prod.fst := by
        have := hnd
        unfold keysNodup at this
        rw [List.map_cons, List.nodup_cons] at this
        exact this.1
      have h1 : dropOldest (x :: xs) = xs := by
        show eraseKey (x :: xs) x.1 = xs
        have h2 : eraseKey (x :: xs) x.1 = eraseKey xs x.1 := by
          simp [eraseKey, List.filter_cons]
        rw [h2]
        apply eraseKey_of_not_has
        rw [hasKey_eq_false_iff]
        intro p hp he
        exact hx1 (List.mem_map.2 ⟨p, hp, he⟩)
      rw [h1]
      have h3 : hasKey xs id = false := by
        rw [hasKey_eq_false_iff] at hid ⊢
        intro p hp
        exact hid p (List.mem_cons_of_mem x hp)
      rw [eraseKey_of_not_has xs id h3]
      rfl

theorem cacheSession_of_has (c : Cache α β) (id : α) (m : β)
    (hid : hasKey c id = true) :
    cacheSession c id m = eraseKey c id ++ [(id, m)] := by
  unfold cacheSession
  rw [if_neg]
  intro hcond
  rw [hid] at hcond
  exact hcond.2 rfl

end Cache

/-- Embeds `load(key, fallback)`:

    try {
        const raw = localStorage.getItem(PREFIX + key);
        return raw !== null ? JSON.parse(raw) : fallback;
    } catch (e) {
        return fallback;
    }

`store` is the state of localStorage (`getItem` returns the stored string
or null), `parse` is `JSON.parse` with its possible `SyntaxError` made
explicit as `Except`.  The surrounding try/catch turns any parse error
into the fallback, so the function is total. -/
def load {V : Type} (parse : String → Except String V)
    (store : String → Option String) (key : String) (fallback : V) : V :=
  match store (pwNsStr ++ key) with
  | none => fallback
  | some raw =>
      match parse raw with
      | Except.ok v => v
      | Except.error _ => fallback

/-- Embeds `save(key, value)`:

    try {
        localStorage.setItem(PREFIX + key, JSON.stringify(value));
    } catch (e) {
        console.warn('[State] save failed:', e);
    }

`setItem` may fail (quota); the catch swallows the failure, leaving the
store unchanged, and no exception escapes: the result is a plain store. -/
def save (setItem : String → String → Except String (String → Option String))
    (store : String → Option String) (key : String) (value : String) :
    String → Option String :=
  match setItem (pwNsStr ++ key) value with
  | Except.ok s => s
  | Except.error _ => store

end StateManager

namespace SemVer

/-- Numeric value of a decimal digit character. -/
def digitVal (c : Char) : Nat := c.toNat - 48

/-- Splitting a dotted decimal string into its numeric components,
accumulating the current component. -/
def parseComponents : List Char → Nat → List Nat
  | [], cur => [cur]
  | c :: rest, cur =>
      if c = '.' then cur :: parseComponents rest 0
      else parseComponents rest (cur * 10 + digitVal c)

/-- Modelled from the spec: the updater module (`updater.py`) is not part
of the material, only its documentation is.  "Fetches … the latest
version, compares with installed" using semantic ordering.  A semantic
version string such as "1.2.0" is split on dots into its numeric
components. -/
def parseVersion (s : String) : List Nat :=
  parseComponents s.data 0

/-- Strict lexicographic order on version component lists: the semantic
ordering on versions.  A proper prefix is smaller. -/
def ltComponents : List Nat → List Nat → Bool
  | [], [] => false
  | [], _ :: _ => true
  | _ :: _, [] => false
  | a :: as, b :: bs =>
      if a < b then true
      else if b < a then false
      else ltComponents as bs

/-- Modelled from the spec: the reconciler reports an update exactly when
the index version is strictly greater than the installed one under
semantic ordering. -/
def updateAvailable (installed index : String) : Bool :=
  ltComponents (parseVersion installed) (parseVersion index)

theorem ltComponents_irrefl (l : List Nat) : ltComponents l l = false := by
  induction l with
  | nil => rfl
  | cons a as ih => simp [ltComponents, ih]

theorem ltComponents_asymm (l₁ l₂ : List Nat) (h : ltComponents l₁ l₂ = true) :
    ltComponents l₂ l₁ = false := by
  induction l₁ generalizing l₂ with
  | nil =>
      cases l₂ with
      | nil => simp [ltComponents] at h
      | cons b bs => rfl
  | cons a as ih =>
      cases l₂ with
      | nil => simp [ltComponents] at h
      | cons b bs =>
          simp only [ltComponents] at h ⊢
          by_cases hab : a < b
          · rw [if_neg (Nat.lt_asymm hab), if_pos hab]
          · by_cases hba : b < a
            · rw [if_neg hab, if_pos hba] at h
              exact absurd h Bool.false_ne_true
            · have hEq : a = b := Nat.le_antisymm (Nat.not_lt.1 hba) (Nat.not_lt.1 hab)
              subst hEq
              rw [if_neg hab, if_neg hab] at h
              rw [if_neg hab, if_neg hab]
              exact ih bs h

/-- The semantic "strictly newer" relation as a proposition, for the
iff-characterisation of `updateAvailable`. -/
inductive LtVer : List Nat → List Nat → Prop
  | nilCons (b : Nat) (bs : List Nat) : LtVer [] (b :: bs)
  | headLt {a b : Nat} (as bs : List Nat) : a < b → LtVer (a :: as) (b :: bs)
  | headEq {a : Nat} {as bs : List Nat} : LtVer as bs → LtVer (a :: as) (a :: bs)

theorem ltComponents_iff_LtVer (l₁ l₂ : List Nat) :
    ltComponents l₁ l₂ = true ↔ LtVer l₁ l₂ := by
  induction l₁ generalizing l₂ with
  | nil =>
      cases l₂ with
      | nil =>
          constructor
          · intro h; simp [ltComponents] at h
          · intro h; cases h
      | cons b bs =>
          constructor
          · intro _; exact LtVer.nilCons b bs
          · intro _; rfl
  | cons a as ih =>
      cases l₂ with
      | nil =>
          constructor
          · intro h; simp [ltComponents] at h
          · intro h; cases h
      | cons b bs =>
          simp only [ltComponents]
          by_cases hab : a < b
          · rw [if_pos hab]
            exact iff_of_true rfl (LtVer.headLt as bs hab)
          · by_cases hba : b < a
            · rw [if_neg hab, if_pos hba]
              refine iff_of_false Bool.false_ne_true ?_
              intro h
              cases h with
              | headLt _ _ hlt => exact absurd hlt hab
              | headEq h2 => exact absurd rfl (Nat.ne_of_lt hba)
            · have hEq : a = b := Nat.le_antisymm (Nat.not_lt.1 hba) (Nat.not_lt.1 hab)
              subst hEq
              rw [if_neg hab, if_neg hab]
              constructor
              · intro h; exact LtVer.headEq ((ih bs).1 h)
              · intro h
                cases h with
                | headLt _ _ hlt => exact absurd hlt (Nat.lt_irrefl a)
                | headEq h2 => exact (ih bs).2 h2

end SemVer

namespace InstallPs1

/-- The interpreter commands probed by the `foreach ($cmd in @("python",
"python3", "py"))` loop of `install.ps1` (`py` is probed as `py -3`). -/
inductive PyCmd
  | python
  | python3
  | py3
deriving DecidableEq

/-- Which stage of the discovery cascade produced the interpreter. -/
inductive PySource
  | onPath
  | viaUv
  | viaWinget
deriving DecidableEq

/-- The machine state `install.ps1` runs against.  `probe c` is the
version printed by `c -c "import sys; print(...)"` (`none` when the
command is absent, exits non-zero, or throws); `probeAfterWinget` is the
same probe after the winget install and PATH refresh. -/
structure Env where
  probe : PyCmd → Option (Nat × Nat)
  uvPresent : Bool
  uvInstallOk : Bool
  uvPythonInstallOk : Bool
  uvFindPath : Option String
  wingetPresent : Bool
  wingetRunOk : Bool
  probeAfterWinget : PyCmd → Option (Nat × Nat)

/-- Embeds the version test of `Test-PythonVersion` (and the identical
inline check for `py -3`):

    return ($major -ge 3 -and $minor -ge 11)
-/
def versionOk (v : Nat × Nat) : Bool :=
  decide (3 ≤ v.1) && decide (11 ≤ v.2)

/-- One iteration of the probe loop: the command is accepted exactly when
it is present, its probe succeeds, and `Test-PythonVersion` returns true. -/
def tryCmd (probe : PyCmd → Option (Nat × Nat)) (c : PyCmd) :
    Option (PyCmd × Nat × Nat) :=
  match probe c with
  | none => none
  | some v => if versionOk v then some (c, v) else none

/-- Embeds the `foreach ($cmd in @("python", "python3", "py"))` loop:
first command that exists and passes the version test wins. -/
def findOnPath (probe : PyCmd → Option (Nat × Nat)) :
    Option (PyCmd × Nat × Nat) :=
  match tryCmd probe .python with
  | some r => some r
  | none =>
      match tryCmd probe .python3 with
      | some r => some r
      | none => tryCmd probe .py3

/-- `$uvAvailable` after the bootstrap block of cascade 1: uv was already
on PATH, or the `irm astral.sh/uv/install.ps1` install put it there. -/
def uvAvailableAfterBootstrap (e : Env) : Bool :=
  e.uvPresent || e.uvInstallOk

/-- Embeds cascade 1 (`uv python install 3.12` then `uv python find 3.12`):
yields the path uv reports, or `none` when uv is unavailable, the install
exits non-zero, or `uv python find` prints nothing. -/
def cascadeUv (e : Env) : Option String :=
  if uvAvailableAfterBootstrap e then
    if e.uvPythonInstallOk then e.uvFindPath else none
  else none

/-- Embeds cascade 2 (`winget install Python.Python.3.12` followed by a
re-probe of `python` and `python3` with `Test-PythonVersion`). -/
def cascadeWinget (e : Env) : Option (PyCmd × Nat × Nat) :=
  if e.wingetPresent && e.wingetRunOk then
    match tryCmd e.probeAfterWinget .python with
    | some r => some r
    | none => tryCmd e.probeAfterWinget .python3
  else none

def pyCmdName : PyCmd → String
  | .python => "python"
  | .python3 => "python3"
  | .py3 => "py -3"

/-- The interpreter version `uv python install 3.12` pins and
`uv python find 3.12` reports: CPython 3.12. -/
def uvPinnedVersion : Nat × Nat := (3, 12)

/-- The manual-remediation URL printed by cascade 3. -/
def manualInstallUrl : String := "https://www.python.org/downloads/"

/-- Embeds the messages of cascade 3 (`Write-Err` + two `Write-Host`
lines before `exit 1`). -/
def failMessages : List String :=
  ["Python 3.11+ is required but could not be installed.",
   "       Install manually from: " ++ manualInstallUrl,
   "       Or run: winget install Python.Python.3.12"]

/-- Outcome of the Find-Python section of `install.ps1`: an accepted
interpreter (with the cascade stage, the command or path, and its
version), or the fatal `exit 1` with its error messages. -/
inductive FindResult
  | found (src : PySource) (cmd : String) (version : Nat × Nat)
  | failed (messages : List String)
deriving DecidableEq

/-- Embeds the whole Find-Python cascade of `install.ps1`: the PATH loop,
then cascade 1 (uv), then cascade 2 (winget), then the hard exit. -/
def findPython (e : Env) : FindResult :=
  match findOnPath e.probe with
  | some (c, v) => .found .onPath (pyCmdName c) v
  | none =>
      match cascadeUv e with
      | some p => .found .viaUv p uvPinnedVersion
      | none =>
          match cascadeWinget e with
          | some (c, v) => .found .viaWinget (pyCmdName c) v
          | none => .failed failMessages

theorem tryCmd_versionOk (probe : PyCmd → Option (Nat × Nat)) (c : PyCmd)
    (r : PyCmd × Nat × Nat) (h : tryCmd probe c = some r) :
    versionOk r.2 = true := by
  unfold tryCmd at h
  split at h
  · exact absurd h (by simp)
  · split at h
    · cases h
      assumption
    · exact absurd h (by simp)

theorem findOnPath_versionOk (probe : PyCmd → Option (Nat × Nat))
    (r : PyCmd × Nat × Nat) (h : findOnPath probe = some r) :
    versionOk r.2 = true := by
  unfold findOnPath at h
  split at h
  case h_1 r1 heq =>
    cases h
    exact tryCmd_versionOk probe .python r heq
  case h_2 =>
    split at h
    case h_1 r2 heq =>
      cases h
      exact tryCmd_versionOk probe .python3 r heq
    case h_2 =>
      exact tryCmd_versionOk probe .py3 r h

theorem cascadeWinget_versionOk (e : Env) (r : PyCmd × Nat × Nat)
    (h : cascadeWinget e = some r) : versionOk r.2 = true := by
  unfold cascadeWinget at h
  split at h
  · split at h
    case h_1 r1 heq =>
      cases h
      exact tryCmd_versionOk _ .python r heq
    case h_2 =>
      exact tryCmd_versionOk _ .python3 r h
  · exact absurd h (by simp)

/-- Meeting the version floor 3.11: either the major version exceeds 3,
or it is 3 and the minor version is at least 11. -/
def MeetsFloor (v : Nat × Nat) : Prop :=
  3 < v.1 ∨ (v.1 = 3 ∧ 11 ≤ v.2)

theorem versionOk_meetsFloor (v : Nat × Nat) (h : versionOk v = true) :
    MeetsFloor v := by
  unfold versionOk at h
  rw [Bool.and_eq_true, decide_eq_true_eq, decide_eq_true_eq] at h
  rcases Nat.lt_or_ge 3 v.1 with h3 | h3
  · exact Or.inl h3
  · exact Or.inr ⟨Nat.le_antisymm h3 h.1, h.2⟩

end InstallPs1

namespace Launcher

/-- The install mode recorded by the InstallationRecord: release (PyPI),
a git branch, or a local editable path. -/
inductive Mode
  | release
  | branch (name : String)
  | localPath (path : String)
deriving DecidableEq

/-- Modelled from the spec: the persistent InstallationRecord; only the
`mode` field matters for the claims settled here. -/
structure InstallationRecord where
  mode : Mode
deriving DecidableEq

/-- Modelled from the spec: launcher state — the `~/.pocketclaw/.dev-mode`
marker (present with the active branch/path exactly in dev mode) and the
installation record. -/
structure LauncherState where
  marker : Option Mode
  record : InstallationRecord
deriving DecidableEq

/-- The dev flag of a launcher invocation: none, `--dev`/`--branch NAME`,
or `--local PATH` (`--dev` is a shortcut for `--branch dev`). -/
inductive DevArg
  | noDev
  | branch (name : String)
  | localPath (path : String)
deriving DecidableEq

/-- Modelled from the spec: the install/reset transition of the launcher
(`bootstrap.py` is not in the material; README "How dev mode works" and
TESTING "Test switching back to PyPI").  A run with a dev argument
installs from that branch/path and writes the marker with it; `--reset`
without a dev argument removes the marker and reinstalls from the release
index, so the record's mode becomes release; a plain run with an existing
installation changes nothing. -/
def applyRun (s : LauncherState) (dev : DevArg) (reset : Bool) : LauncherState :=
  match dev with
  | .branch n => { marker := some (.branch n), record := { mode := .branch n } }
  | .localPath p => { marker := some (.localPath p), record := { mode := .localPath p } }
  | .noDev =>
      if reset then { marker := none, record := { mode := .release } }
      else s

/-- A ServerHandle: the supervised child process and its bound port. -/
structure ServerHandle where
  pid : Nat
  port : Nat
deriving DecidableEq

/-- The supervisor's persistent state: the PID record file
(`~/.pocketclaw/launcher.pid`), or none when no record exists. -/
structure SupervisorState where
  pidRecord : Option ServerHandle
deriving DecidableEq

/-- Modelled from the spec: what the operating system reports during a
`start` call — whether a pid belongs to a running process of the expected
binary, the pid a fresh spawn would get, and the first free port at or
above a requested port. -/
structure SysEnv where
  runningExpected : Nat → Bool
  freshPid : Nat
  firstFreePort : Nat → Nat

/-- Modelled from the spec: `server.py` `start(port)` — if the persisted
PID belongs to a live process of the expected binary, return the existing
handle without spawning; otherwise (no record, or a stale record) spawn a
child on the first free port, persist its pid and port, and report the
spawned pid in the third component (`none` when nothing was spawned). -/
def start (env : SysEnv) (s : SupervisorState) (port : Nat) :
    ServerHandle × SupervisorState × Option Nat :=
  match s.pidRecord with
  | some h =>
      if env.runningExpected h.pid then (h, s, none)
      else
        let h2 : ServerHandle := ⟨env.freshPid, env.firstFreePort port⟩
        (h2, ⟨some h2⟩, some h2.pid)
  | none =>
      let h2 : ServerHandle := ⟨env.freshPid, env.firstFreePort port⟩
      (h2, ⟨some h2⟩, some h2.pid)

/-- Which path `stop()` took. -/
inductive StopPath
  | alreadyStopped
  | staleRecord
  | graceful
  | forced
deriving DecidableEq

/-- Modelled from the spec: `server.py` `stop()` — graceful SIGTERM, wait
up to the grace period, SIGKILL only if still alive, and clear the PID
record in every path.  `alive pid` says whether the recorded process is
running at all; `exitsWithinGrace pid` whether it terminates within the
grace period after SIGTERM.  The function is total: no path raises. -/
def stop (alive exitsWithinGrace : Nat → Bool) (s : SupervisorState) :
    SupervisorState × StopPath :=
  match s.pidRecord with
  | none => (s, .alreadyStopped)
  | some h =>
      if alive h.pid then
        if exitsWithinGrace h.pid then (⟨none⟩, .graceful)
        else (⟨none⟩, .forced)
      else (⟨none⟩, .staleRecord)

/-- What the update reconciler offers after a check. -/
inductive UpdateOffer
  | noUpdate
  | updateTo (version : List Nat)
  | repull (spec : Mode)
deriving DecidableEq

/-- Modelled from the spec: `updater.py` check — while the dev-mode
marker exists, PyPI is never queried and a re-pull of the configured
branch/path is always offered; otherwise the index is queried (`none`
models a network failure, swallowed as "no update") and compared under
semantic ordering.  The second component records whether the release
index was queried. -/
def checkForUpdates (marker : Option Mode) (installed : List Nat)
    (indexResult : Option (List Nat)) : UpdateOffer × Bool :=
  match marker with
  | some spec => (.repull spec, false)
  | none =>
      match indexResult with
      | none => (.noUpdate, true)
      | some latest =>
          (if SemVer.ltComponents installed latest then .updateTo latest
           else .noUpdate, true)

/-- The concrete actions taken when an offer is applied. -/
inductive ApplyStep
  | forceReinstall (spec : Mode)
  | upgradeFromIndex
  | restartServer
deriving DecidableEq

/-- Modelled from the spec: applying an offer — a release upgrade runs
`pip install --upgrade` then restarts; a dev re-pull runs
`pip install --force-reinstall` from the same branch/local spec then
restarts. -/
def applyOffer : UpdateOffer → List ApplyStep
  | .noUpdate => []
  | .updateTo _ => [.upgradeFromIndex, .restartServer]
  | .repull spec => [.forceReinstall spec, .restartServer]

/-- The components the uninstaller enumerates (TESTING "Test
Uninstaller"): venv, the uv tool, the privately installed Python
runtime, logs, the configuration file, persisted memory, audit data. -/
inductive Component
  | venv
  | uvTool
  | pythonRuntime
  | logs
  | config
  | memory
  | audit
deriving DecidableEq

/-- Modelled from the spec: the uninstaller's per-component retention
defaults (venv, uv, python, logs default to remove; config, memory,
audit default to keep — removal of user data needs explicit opt-in). -/
def defaultRemove : Component → Bool
  | .venv => true
  | .uvTool => true
  | .pythonRuntime => true
  | .logs => true
  | .config => false
  | .memory => false
  | .audit => false

/-- Modelled from the spec: which components an uninstall run removes —
in interactive mode the per-component answers, in non-interactive mode
the defaults. -/
def removedComponents (interactive : Bool) (answers : Component → Bool)
    (c : Component) : Bool :=
  if interactive then answers c else defaultRemove c

/-- Answer to the Windows uninstaller's Yes/No confirmation dialog. -/
inductive MsgBoxAnswer
  | yes
  | no
deriving DecidableEq

/-- Embeds `MB_YESNO or MB_DEFBUTTON2` of `pocketpaw.iss`: the default
button of the confirmation dialog is the second one, No (keep data). -/
def dialogDefault : MsgBoxAnswer := .no

/-- Embeds `CurUninstallStepChanged` of `pocketpaw.iss`: at the
post-uninstall step, when `~/.pocketclaw` exists, the dialog is shown and
`DelTree` runs only on the answer Yes.  Returns whether the data
directory was deleted. -/
def issDataDirDeleted (postUninstallStep dirExists : Bool)
    (answer : MsgBoxAnswer) : Bool :=
  postUninstallStep && dirExists && decide (answer = .yes)

end Launcher

theorem start_pidRecord (env : Launcher.SysEnv) (s : Launcher.SupervisorState)
    (port : Nat) :
    ((Launcher.start env s port).2.1).pidRecord
      = some (Launcher.start env s port).1 := by
  unfold Launcher.start
  split
  case h_1 h heq =>
    split
    · exact heq
    · rfl
  case h_2 heq => rfl

/-- Claim C1: uninstallation with default (non-interactive) choices removes
the isolated environment, the privately installed runtime, the uv tool and
the logs, but keeps the configuration file and persisted memory/audit data
(removal of user data needs explicit opt-in); the Windows uninstaller's
confirmation dialog defaults to No (keep), and the data directory is
deleted only when the user answers Yes. -/
theorem claim_C1 :
    (∀ answers : Launcher.Component → Bool,
        Launcher.removedComponents false answers .venv = true
        ∧ Launcher.removedComponents false answers .pythonRuntime = true
        ∧ Launcher.removedComponents false answers .uvTool = true
        ∧ Launcher.removedComponents false answers .logs = true
        ∧ Launcher.removedComponents false answers .config = false
        ∧ Launcher.removedComponents false answers .memory = false
        ∧ Launcher.removedComponents false answers .audit = false)
    ∧ Launcher.dialogDefault = Launcher.MsgBoxAnswer.no
    ∧ (∀ st de : Bool,
        Launcher.issDataDirDeleted st de Launcher.dialogDefault = false)
    ∧ (∀ (st de : Bool) (a : Launcher.MsgBoxAnswer),
        Launcher.issDataDirDeleted st de a = true →
        a = Launcher.MsgBoxAnswer.yes) := by
  refine ⟨fun answers => ⟨rfl, rfl, rfl, rfl, rfl, rfl, rfl⟩, rfl, ?_, ?_⟩
  · intro st de
    simp [Launcher.issDataDirDeleted, Launcher.dialogDefault]
  · intro st de a h
    simp only [Launcher.issDataDirDeleted, Bool.and_eq_true,
      decide_eq_true_eq] at h
    exact h.2

theorem claim_C1_witness :
    Launcher.issDataDirDeleted true true Launcher.MsgBoxAnswer.yes = true
    ∧ Launcher.MsgBoxAnswer.yes = Launcher.MsgBoxAnswer.yes :=
  ⟨by decide, claim_C1.2.2.2 true true Launcher.MsgBoxAnswer.yes (by decide)⟩

/-- Claim C2: when no interpreter meeting the floor is found on PATH, the
cascade of install.ps1 proceeds in exactly this order — uv into user
scope, then winget, then a fatal error whose messages name the manual
interpreter install URL — and a later stage is reached only when every
earlier one failed. -/
theorem claim_C2 :
    ∀ e : InstallPs1.Env,
      (∀ c v, InstallPs1.findOnPath e.probe = some (c, v) →
          InstallPs1.findPython e
            = InstallPs1.FindResult.found .onPath (InstallPs1.pyCmdName c) v)
      ∧ (InstallPs1.findOnPath e.probe = none →
          ∀ p, InstallPs1.cascadeUv e = some p →
            InstallPs1.findPython e
              = InstallPs1.FindResult.found .viaUv p
                  InstallPs1.uvPinnedVersion)
      ∧ (InstallPs1.findOnPath e.probe = none →
          InstallPs1.cascadeUv e = none →
          ∀ c v, InstallPs1.cascadeWinget e = some (c, v) →
            InstallPs1.findPython e
              = InstallPs1.FindResult.found .viaWinget
                  (InstallPs1.pyCmdName c) v)
      ∧ (InstallPs1.findOnPath e.probe = none →
          InstallPs1.cascadeUv e = none →
          InstallPs1.cascadeWinget e = none →
          InstallPs1.findPython e
              = InstallPs1.FindResult.failed InstallPs1.failMessages
          ∧ ("       Install manually from: " ++ InstallPs1.manualInstallUrl)
              ∈ InstallPs1.failMessages) := by
  intro e
  refine ⟨?_, ?_, ?_, ?_⟩
  · intro c v h
    unfold InstallPs1.findPython
    rw [h]
  · intro h1 p h2
    unfold InstallPs1.findPython
    rw [h1, h2]
  · intro h1 h2 c v h3
    unfold InstallPs1.findPython
    rw [h1, h2, h3]
  · intro h1 h2 h3
    constructor
    · unfold InstallPs1.findPython
      rw [h1, h2, h3]
    · simp [InstallPs1.failMessages]

theorem claim_C2_witness :
    InstallPs1.findOnPath (fun _ => none) = none
    ∧ InstallPs1.findPython
        ⟨fun _ => none, false, false, false, none, false, false,
          fun _ => none⟩
        = InstallPs1.FindResult.failed InstallPs1.failMessages :=
  ⟨rfl, ((claim_C2 ⟨fun _ => none, false, false, false, none, false, false,
      fun _ => none⟩).2.2.2 rfl rfl rfl).1⟩

/-- Claim C3: every interpreter the cascade of install.ps1 selects and
returns reports a version meeting the 3.11 floor; the accept branches are
unreachable for a below-floor interpreter, so none is silently accepted. -/
theorem claim_C3 :
    ∀ (e : InstallPs1.Env) (src : InstallPs1.PySource) (cmd : String)
      (v : Nat × Nat),
      InstallPs1.findPython e = InstallPs1.FindResult.found src cmd v →
      InstallPs1.MeetsFloor v := by
  intro e src cmd v h
  unfold InstallPs1.findPython at h
  cases hfp : InstallPs1.findOnPath e.probe with
  | some r =>
      obtain ⟨c2, v2⟩ := r
      rw [hfp] at h
      cases h
      exact InstallPs1.versionOk_meetsFloor _
        (InstallPs1.findOnPath_versionOk e.probe (c2, v) hfp)
  | none =>
      rw [hfp] at h
      cases hc1 : InstallPs1.cascadeUv e with
      | some p =>
          rw [hc1] at h
          cases h
          exact Or.inr ⟨rfl, by decide⟩
      | none =>
          rw [hc1] at h
          cases hc2 : InstallPs1.cascadeWinget e with
          | some r =>
              obtain ⟨c2, v2⟩ := r
              rw [hc2] at h
              cases h
              exact InstallPs1.versionOk_meetsFloor _
                (InstallPs1.cascadeWinget_versionOk e (c2, v) hc2)
          | none =>
              rw [hc2] at h
              exact absurd h (by simp)

theorem claim_C3_witness :
    InstallPs1.findPython
        ⟨fun _ => some (3, 12), false, false, false, none, false, false,
          fun _ => none⟩
        = InstallPs1.FindResult.found .onPath "python" (3, 12)
    ∧ InstallPs1.MeetsFloor (3, 12) :=
  ⟨rfl, claim_C3 ⟨fun _ => some (3, 12), false, false, false, none, false,
      false, fun _ => none⟩ .onPath "python" (3, 12) rfl⟩

/-- Claim C4: a run with mode=branch writes the dev marker with the given
branch name and sets the record's mode to that branch; a reset without a
dev argument removes the marker and leaves mode release whatever the
previous state was; and this reset is the only transition that brings a
non-release installation back to release mode. -/
theorem claim_C4 :
    (∀ (s : Launcher.LauncherState) (n : String) (r : Bool),
        (Launcher.applyRun s (Launcher.DevArg.branch n) r).marker
            = some (Launcher.Mode.branch n)
        ∧ (Launcher.applyRun s (Launcher.DevArg.branch n) r).record.mode
            = Launcher.Mode.branch n)
    ∧ (∀ s : Launcher.LauncherState,
        Launcher.applyRun s Launcher.DevArg.noDev true
          = ⟨none, ⟨Launcher.Mode.release⟩⟩)
    ∧ (∀ (s : Launcher.LauncherState) (dev : Launcher.DevArg) (r : Bool),
        s.record.mode ≠ Launcher.Mode.release →
        (Launcher.applyRun s dev r).record.mode = Launcher.Mode.release →
        dev = Launcher.DevArg.noDev ∧ r = true) := by
  refine ⟨fun s n r => ⟨rfl, rfl⟩, fun s => rfl, ?_⟩
  intro s dev r h1 h2
  cases dev with
  | noDev =>
      cases r with
      | true => exact ⟨rfl, rfl⟩
      | false => exact absurd h2 h1
  | branch n => simp [Launcher.applyRun] at h2
  | localPath p => simp [Launcher.applyRun] at h2

theorem claim_C4_witness :
    (Launcher.LauncherState.mk (some (Launcher.Mode.branch "dev"))
        ⟨Launcher.Mode.branch "dev"⟩).record.mode ≠ Launcher.Mode.release
    ∧ (Launcher.DevArg.noDev = Launcher.DevArg.noDev ∧ true = true) :=
  ⟨by decide, claim_C4.2.2 (Launcher.LauncherState.mk
      (some (Launcher.Mode.branch "dev")) ⟨Launcher.Mode.branch "dev"⟩)
      Launcher.DevArg.noDev true (by decide) rfl⟩

/-- Claim C5: in release mode the reconciler reports an update exactly
when the index version is strictly greater than the installed one under
semantic ordering: it reports one for installed 1.1.9 against index
1.2.0, none for index 1.1.9 against installed 1.2.0 (no downgrade flag),
none when equal, and never flags both directions at once. -/
theorem claim_C5 :
    (∀ installed index, SemVer.updateAvailable installed index = true ↔
        SemVer.LtVer (SemVer.parseVersion installed)
          (SemVer.parseVersion index))
    ∧ SemVer.updateAvailable "1.1.9" "1.2.0" = true
    ∧ SemVer.updateAvailable "1.2.0" "1.1.9" = false
    ∧ SemVer.updateAvailable "1.2.0" "1.2.0" = false
    ∧ (∀ v, SemVer.updateAvailable v v = false)
    ∧ (∀ a b, SemVer.updateAvailable a b = true →
        SemVer.updateAvailable b a = false) := by
  refine ⟨?_, by decide, by decide, by decide, ?_, ?_⟩
  · intro installed index
    exact SemVer.ltComponents_iff_LtVer _ _
  · intro v
    exact SemVer.ltComponents_irrefl _
  · intro a b h
    exact SemVer.ltComponents_asymm _ _ h

theorem claim_C5_witness :
    SemVer.updateAvailable "1.1.9" "1.2.0" = true
    ∧ SemVer.updateAvailable "1.2.0" "1.1.9" = false :=
  ⟨by decide, claim_C5.2.2.2.2.2 "1.1.9" "1.2.0" (by decide)⟩

/-- Claim C6: while the process started by a first start() call is still
alive, a second start() returns the same ServerHandle (same pid and port)
with the state unchanged and spawns nothing. -/
theorem claim_C6 :
    ∀ (env : Launcher.SysEnv) (s : Launcher.SupervisorState) (port : Nat)
      (h1 : Launcher.ServerHandle) (s1 : Launcher.SupervisorState)
      (sp : Option Nat) (env2 : Launcher.SysEnv) (port2 : Nat),
      Launcher.start env s port = (h1, s1, sp) →
      env2.runningExpected h1.pid = true →
      Launcher.start env2 s1 port2 = (h1, s1, none) := by
  intro env s port h1 s1 sp env2 port2 hstart halive
  have hrec : s1.pidRecord = some h1 := by
    have h := start_pidRecord env s port
    rw [hstart] at h
    exact h
  unfold Launcher.start
  rw [hrec]
  simp [halive]

theorem claim_C6_witness :
    Launcher.start ⟨fun _ => false, 42, fun p => p⟩ ⟨none⟩ 8888
        = (⟨42, 8888⟩, ⟨some ⟨42, 8888⟩⟩, some 42)
    ∧ (⟨fun _ => true, 5, fun p => p⟩ : Launcher.SysEnv).runningExpected 42
        = true
    ∧ Launcher.start ⟨fun _ => true, 5, fun p => p⟩ ⟨some ⟨42, 8888⟩⟩ 9999
        = (⟨42, 8888⟩, ⟨some ⟨42, 8888⟩⟩, none) :=
  ⟨rfl, rfl,
    claim_C6 ⟨fun _ => false, 42, fun p => p⟩ ⟨none⟩ 8888 ⟨42, 8888⟩
      ⟨some ⟨42, 8888⟩⟩ (some 42) ⟨fun _ => true, 5, fun p => p⟩ 9999
      rfl rfl⟩

/-- Claim C7: stop() always ends with the PID record cleared whichever
path stopped the process; on an already-stopped supervisor it is a no-op
that raises nothing and leaves no stale record; it force-kills exactly
when the process is alive and does not exit within the grace period, and
exits gracefully when the process terminates within it. -/
theorem claim_C7 :
    ∀ (alive exits : Nat → Bool) (s : Launcher.SupervisorState),
      ((Launcher.stop alive exits s).1).pidRecord = none
      ∧ Launcher.stop alive exits ⟨none⟩
          = (⟨none⟩, Launcher.StopPath.alreadyStopped)
      ∧ (∀ h : Launcher.ServerHandle, s.pidRecord = some h →
          ((Launcher.stop alive exits s).2 = Launcher.StopPath.forced ↔
            (alive h.pid = true ∧ exits h.pid = false)))
      ∧ (∀ h : Launcher.ServerHandle, s.pidRecord = some h →
          alive h.pid = true → exits h.pid = true →
          Launcher.stop alive exits s
            = (⟨none⟩, Launcher.StopPath.graceful)) := by
  intro alive exits s
  refine ⟨?_, rfl, ?_, ?_⟩
  · unfold Launcher.stop
    split
    case h_1 heq => exact heq
    case h_2 h heq =>
      split
      · split
        · rfl
        · rfl
      · rfl
  · intro h hrec
    unfold Launcher.stop
    rw [hrec]
    cases ha : alive h.pid with
    | false => simp [ha]
    | true =>
        cases he : exits h.pid with
        | false => simp [ha, he]
        | true => simp [ha, he]
  · intro h hrec ha he
    unfold Launcher.stop
    rw [hrec]
    simp [ha, he]

theorem claim_C7_witness :
    ((⟨some ⟨7, 8888⟩⟩ : Launcher.SupervisorState).pidRecord
        = some ⟨7, 8888⟩)
    ∧ (Launcher.stop (fun _ => true) (fun _ => false)
        ⟨some ⟨7, 8888⟩⟩).2 = Launcher.StopPath.forced :=
  ⟨rfl, ((claim_C7 (fun _ => true) (fun _ => false)
      ⟨some ⟨7, 8888⟩⟩).2.2.1 ⟨7, 8888⟩ rfl).2 ⟨rfl, rfl⟩⟩

/-- Claim C8: while the dev-mode marker is present the reconciler never
queries the release index (the query flag is false) and always offers a
re-pull of the configured branch, applied as a forced reinstall from the
same spec followed by a restart. -/
theorem claim_C8 :
    ∀ (marker : Option Launcher.Mode) (spec : Launcher.Mode)
      (installed : List Nat) (indexResult : Option (List Nat)),
      marker = some spec →
      Launcher.checkForUpdates marker installed indexResult
          = (Launcher.UpdateOffer.repull spec, false)
      ∧ Launcher.applyOffer (Launcher.UpdateOffer.repull spec)
          = [Launcher.ApplyStep.forceReinstall spec,
             Launcher.ApplyStep.restartServer] := by
  intro marker spec installed indexResult hm
  subst hm
  exact ⟨rfl, rfl⟩

theorem claim_C8_witness :
    Launcher.checkForUpdates (some (Launcher.Mode.branch "dev")) [1, 2, 0]
        (some [9, 9, 9])
      = (Launcher.UpdateOffer.repull (Launcher.Mode.branch "dev"), false) :=
  (claim_C8 (some (Launcher.Mode.branch "dev")) (Launcher.Mode.branch "dev")
    [1, 2, 0] (some [9, 9, 9]) rfl).1

/-- Claim C9: any sequence of cacheSession calls starting from the empty
cache keeps at most 20 entries; inserting a new id into a full cache
evicts exactly the least-recently-cached (oldest) entry; re-caching a
present id moves it to most-recent without evicting any other entry. -/
theorem claim_C9 :
    (∀ ops : List (String × List String),
        (ops.foldl (fun acc op => StateManager.cacheSession acc op.1 op.2)
            ([] : StateManager.Cache String (List String))).length
          ≤ StateManager.MAX_CACHE)
    ∧ (∀ (c : StateManager.Cache String (List String)) (id : String)
          (m : List String),
        StateManager.keysNodup c → c.length = StateManager.MAX_CACHE →
        StateManager.hasKey c id = false →
        StateManager.cacheSession c id m = c.tail ++ [(id, m)])
    ∧ (∀ (c : StateManager.Cache String (List String)) (id : String)
          (m : List String),
        StateManager.hasKey c id = true →
        StateManager.cacheSession c id m
            = StateManager.eraseKey c id ++ [(id, m)]
        ∧ StateManager.hasKey (StateManager.cacheSession c id m) id = true
        ∧ ∀ k, k ≠ id →
            StateManager.hasKey (StateManager.cacheSession c id m) k
              = StateManager.hasKey c k) := by
  refine ⟨?_, ?_, ?_⟩
  · intro ops
    exact StateManager.foldl_cacheSession_length_le ops [] (Nat.zero_le _)
  · intro c id m hnd hlen hid
    exact StateManager.cacheSession_at_capacity c id m hnd hlen hid
  · intro c id m hid
    refine ⟨StateManager.cacheSession_of_has c id m hid, ?_, ?_⟩
    · rw [StateManager.cacheSession_of_has c id m hid,
        StateManager.hasKey_append_single]
      simp
    · intro k hk
      rw [StateManager.cacheSession_of_has c id m hid,
        StateManager.hasKey_append_single,
        StateManager.hasKey_eraseKey c id k hk]
      have hk2 : id ≠ k := fun he => hk he.symm
      simp [hk2]

theorem claim_C9_witness :
    StateManager.hasKey [(("a" : String), (["x"] : List String))] "a" = true
    ∧ StateManager.cacheSession [(("a" : String), (["x"] : List String))]
        "a" ["y"]
      = StateManager.eraseKey [(("a" : String), (["x"] : List String))] "a"
          ++ [("a", ["y"])] :=
  ⟨by decide, (claim_C9.2.2 [("a", ["x"])] "a" ["y"] (by decide)).1⟩

/-- Claim C10: load(key, fallback) is total and never throws — it yields
the fallback when the prefixed key is absent or the stored string fails
to parse, and the parsed value otherwise; a failed save is swallowed and
leaves the store unchanged. -/
theorem claim_C10 :
    (∀ (V : Type) (parse : String → Except String V)
        (store : String → Option String) (key : String) (fallback : V),
      (store (StateManager.pwNsStr ++ key) = none →
          StateManager.load parse store key fallback = fallback)
      ∧ (∀ raw e, store (StateManager.pwNsStr ++ key) = some raw →
          parse raw = Except.error e →
          StateManager.load parse store key fallback = fallback)
      ∧ (∀ raw v, store (StateManager.pwNsStr ++ key) = some raw →
          parse raw = Except.ok v →
          StateManager.load parse store key fallback = v))
    ∧ (∀ (setItem : String → String →
          Except String (String → Option String))
        (store : String → Option String) (key value err : String),
      setItem (StateManager.pwNsStr ++ key) value = Except.error err →
      StateManager.save setItem store key value = store) := by
  constructor
  · intro V parse store key fallback
    refine ⟨?_, ?_, ?_⟩
    · intro hnone
      simp [StateManager.load, hnone]
    · intro raw e h1 h2
      simp [StateManager.load, h1, h2]
    · intro raw v h1 h2
      simp [StateManager.load, h1, h2]
  · intro setItem store key value err h
    simp [StateManager.save, h]

theorem claim_C10_witness :
    ((fun _ => none : String → Option String)
        (StateManager.pwNsStr ++ "k") = none)
    ∧ StateManager.load (fun _ => Except.ok 0) (fun _ => none) "k"
        (7 : Nat) = 7 :=
  ⟨rfl, (claim_C10.1 Nat (fun _ => Except.ok 0) (fun _ => none) "k" 7).1 rfl⟩
